import Mathlib

/-!
Shallow embedding of `src/auto-complete-element.ts` (the `AutoCompleteElement`
custom element).  DOM elements are modelled by opaque identities, the host's
DOM surroundings by a record of resolution functions, the module-level
`state` WeakMap entry for one host by an `Option Nat` engine id together with
a list of all engine records ever constructed (a destroyed JS object is a
record whose `destroyed` flag is set).  Engine method calls and event
dispatches performed by `attributeChangedCallback` are recorded as an effect
trace.
-/

set_option autoImplicit false

namespace ACE

/-- A DOM element identity; JS reference equality becomes id equality. -/
structure Elem where
  id : Nat
  deriving DecidableEq, Repr

/-- The host element's mutable DOM surroundings, as read by the getters of
`AutoCompleteElement`:
* `attrs` — the host's own attribute map (`getAttribute`);
* `explicitFor`, `explicitInput`, `explicitHidden` — the private fields
  `#forElement`, `#inputElement`, `#hiddenInputElement`;
* `connected` — `Element.isConnected` for each element;
* `hostConnected` — `this.isConnected`;
* `rootIsDocOrShadow` — whether `this.getRootNode()` is a `Document` or
  `ShadowRoot`;
* `rootGetById` — `root.getElementById`;
* `queryInput` — `this.querySelector('input')`;
* `queryHidden` — `this.querySelector("input[type='hidden']")`. -/
structure Dom where
  attrs : String → Option String
  explicitFor : Option Elem
  explicitInput : Option Elem
  explicitHidden : Option Elem
  connected : Elem → Bool
  hostConnected : Bool
  rootIsDocOrShadow : Bool
  rootGetById : String → Option Elem
  queryInput : Option Elem
  queryHidden : Option Elem

/-- The id-lookup fallback of the `forElement` getter (source lines 47-52):
read the `for` attribute; if it is truthy and the root node is a document or
shadow root, look the id up there. -/
def forLookup (d : Dom) : Option Elem :=
  match d.attrs r"for" with
  | some id => if id = r"" then none else if d.rootIsDocOrShadow then d.rootGetById id else none
  | none => none

/-- The `forElement` getter (source lines 43-53): a connected explicitly
assigned element wins, otherwise fall back to id lookup. -/
def forElement (d : Dom) : Option Elem :=
  match d.explicitFor with
  | some e => if d.connected e then some e else forLookup d
  | none => forLookup d

/-- The `inputElement` getter (source lines 61-66): a connected explicitly
assigned input wins, otherwise `querySelector('input')`. -/
def inputElement (d : Dom) : Option Elem :=
  match d.explicitInput with
  | some e => if d.connected e then some e else d.queryInput
  | none => d.queryInput

/-- The `hiddenInputElement` getter (source lines 74-79). -/
def hiddenInputElement (d : Dom) : Option Elem :=
  match d.explicitHidden with
  | some e => if d.connected e then some e else d.queryHidden
  | none => d.queryHidden

/-- One `Autocomplete` engine instance, as constructed at source line 104
with `(this, inputElement, hiddenInputElement, forElement, autoselectEnabled)`.
`eid` is the instance's identity, `destroyed` records whether `destroy()`
has been called on it. -/
structure EngineRec where
  eid : Nat
  input : Elem
  hiddenInput : Option Elem
  results : Elem
  autoselect : Bool
  destroyed : Bool
  deriving DecidableEq, Repr

/-- The whole state relevant to one host: its DOM surroundings, the `state`
WeakMap entry for the host (`assoc`, holding the id of the stored engine
object), every engine record ever constructed, and a fresh-id counter. -/
structure HostState where
  dom : Dom
  assoc : Option Nat
  engines : List EngineRec
  nextId : Nat

/-- Calling `destroy()` on the engine object with id `eid`: mark its record
destroyed. -/
def destroyEngine (engines : List EngineRec) (eid : Nat) : List EngineRec :=
  engines.map fun e => if e.eid = eid then { e with destroyed := true } else e

/-- Model of `state.get(this)`: the engine object currently stored for the host. -/
def stateGet (s : HostState) : Option EngineRec :=
  match s.assoc with
  | some eid => s.engines.find? fun e => e.eid = eid
  | none => none

/-- The engines not yet destroyed. -/
def liveEngines (s : HostState) : List EngineRec :=
  s.engines.filter fun e => !e.destroyed

/-- Number of live (non-destroyed) engine instances. -/
def liveCount (s : HostState) : Nat :=
  (liveEngines s).length

/-- First phase of `#reattachState` (source line 100):
`state.get(this)?.destroy()` — destroy the stored engine if there is one.
The WeakMap entry itself is not removed here. -/
def reattachDestroyPhase (s : HostState) : HostState :=
  match s.assoc with
  | some eid => { s with engines := destroyEngine s.engines eid }
  | none => s

/-- Second phase of `#reattachState` (source lines 101-105): resolve the
bindings; if both the `for`-target and the input element resolve, construct
a new engine and store it in the WeakMap (the `role` write on the external
`for`-target element is outside the modelled host state). -/
def reattachBuildPhase (s : HostState) : HostState :=
  match forElement s.dom, inputElement s.dom with
  | some fe, some ie =>
    let eng : EngineRec :=
      { eid := s.nextId
        input := ie
        hiddenInput := hiddenInputElement s.dom
        results := fe
        autoselect := decide (s.dom.attrs r"data-autoselect" = some r"true")
        destroyed := false }
    { s with
      engines := s.engines ++ [eng]
      assoc := some s.nextId
      nextId := s.nextId + 1 }
  | _, _ => s

/-- Model of `#reattachState` (source lines 99-106): destroy, then maybe rebuild. -/
def reattachState (s : HostState) : HostState :=
  reattachBuildPhase (reattachDestroyPhase s)

/-- Model of `connectedCallback` (source lines 86-89). -/
def connectedCallback (s : HostState) : HostState :=
  if s.dom.hostConnected then reattachState s else s

/-- Model of `disconnectedCallback` (source lines 91-97): destroy the stored engine
and delete the WeakMap entry. -/
def disconnectedCallback (s : HostState) : HostState :=
  match s.assoc with
  | some eid => { s with engines := destroyEngine s.engines eid, assoc := none }
  | none => s

/-- The observable actions `attributeChangedCallback` performs on the
captured engine object and the document: `open()`, `close()`, the two value
writes, and dispatching the bubbling `auto-complete-change` event whose
`relatedTarget` is the engine's visible input. -/
inductive Eff where
  | engClose (eid : Nat)
  | engOpen (eid : Nat)
  | writeHidden (eid : Nat) (v : Option String)
  | writeInput (eid : Nat) (v : String)
  | changeEvent (relatedTarget : Elem)
  deriving DecidableEq, Repr

/-- The rebind check of `attributeChangedCallback` (source line 183):
`this.forElement !== state.get(this)?.results ||
 this.inputElement !== state.get(this)?.input`. -/
def rebindNeeded (s : HostState) (eng : EngineRec) : Bool :=
  decide (forElement s.dom ≠ some eng.results) ||
    decide (inputElement s.dom ≠ some eng.input)

/-- Model of `attributeChangedCallback` (source lines 177-206).  `none` models a
`null` old/new value.  Note that the switch statement acts on the engine
object captured at line 180, before the possible `#reattachState()` call. -/
def attributeChangedCallback (s : HostState) (name : String)
    (oldValue newValue : Option String) : HostState × List Eff :=
  if oldValue = newValue then (s, [])
  else
    match stateGet s with
    | none => (s, [])
    | some autocomplete =>
      let s1 := if rebindNeeded s autocomplete then reattachState s else s
      let effs : List Eff :=
        if name = r"open" then
          match newValue with
          | none => [Eff.engClose autocomplete.eid]
          | some _ => [Eff.engOpen autocomplete.eid]
        else if name = r"data-value" then
          [Eff.writeHidden autocomplete.eid newValue]
        else if name = r"value" then
          (match newValue with
            | some v => [Eff.writeInput autocomplete.eid v]
            | none => []) ++ [Eff.changeEvent autocomplete.input]
        else []
      (s1, effs)

/-- The `inputElement` setter (source lines 68-71). -/
def setInputElement (s : HostState) (e : Option Elem) : HostState :=
  reattachState { s with dom := { s.dom with explicitInput := e } }

/-- The `hiddenInputElement` setter (source lines 81-84). -/
def setHiddenInputElement (s : HostState) (e : Option Elem) : HostState :=
  reattachState { s with dom := { s.dom with explicitHidden := e } }

/-- The operations that can hit a host over its lifetime: the lifecycle
callbacks, observed-attribute mutations, the two reattaching property
setters, and arbitrary environment mutation of the DOM surroundings
(reparenting, external attribute writes, children changing).  Composite
source actions — such as the `forElement` setter, which stores the
reference and sets the `for` attribute, firing the attribute callback — are
sequences of these operations. -/
inductive Op where
  | connect
  | disconnect
  | attrChange (name : String) (oldValue newValue : Option String)
  | setInput (e : Option Elem)
  | setHidden (e : Option Elem)
  | domMutate (d : Dom)

/-- One operation applied to the host state. -/
def step (s : HostState) (op : Op) : HostState :=
  match op with
  | .connect => connectedCallback s
  | .disconnect => disconnectedCallback s
  | .attrChange n o v => (attributeChangedCallback s n o v).1
  | .setInput e => setInputElement s e
  | .setHidden e => setHiddenInputElement s e
  | .domMutate d => { s with dom := d }

/-- A whole operation sequence. -/
def run (s : HostState) (ops : List Op) : HostState :=
  ops.foldl step s

/-- A freshly created, not yet connected host in an empty document. -/
def emptyDom : Dom where
  attrs := fun _ => none
  explicitFor := none
  explicitInput := none
  explicitHidden := none
  connected := fun _ => false
  hostConnected := false
  rootIsDocOrShadow := true
  rootGetById := fun _ => none
  queryInput := none
  queryHidden := none

/-- The initial state of a host: no engine ever constructed, empty WeakMap
entry. -/
def initState : HostState where
  dom := emptyDom
  assoc := none
  engines := []
  nextId := 0

/-! ## The request controller (`fetchResult`, source lines 153-171)

The synchronous prologue of `fetchResult` — `this.#requestController?.abort()`
followed by `this.#requestController = new AbortController()` and the start of
the network call — is modelled as a token allocator emitting an event trace;
the part after `await fetch` resumes as `fetchResultAfterResponse` below. -/

/-- The `#requestController` field: the token of the controller currently
held, plus a fresh-token counter. -/
structure ReqState where
  current : Option Nat
  next : Nat
  deriving DecidableEq, Repr

/-- Observable request-lifecycle events: an abort signal firing on a
controller's token, and a network request starting under a token. -/
inductive FetchEv where
  | abortSignal (token : Nat)
  | fetchStart (token : Nat) (url : String)
  deriving DecidableEq, Repr

/-- The synchronous prologue of `fetchResult` (source lines 155-162):
abort the previous controller (if any), allocate a new one, and issue the
network request under its signal.  Returns the new controller state and the
events in the order they happen. -/
def fetchResultSync (s : ReqState) (url : String) : ReqState × List FetchEv :=
  let aborts : List FetchEv :=
    match s.current with
    | some t => [FetchEv.abortSignal t]
    | none => []
  ({ current := some s.next, next := s.next + 1 },
    aborts ++ [FetchEv.fetchStart s.next url])

/-- A fresh host's request controller: nothing started yet. -/
def initReq : ReqState where
  current := none
  next := 0

/-- A sequence of `fetchResult` calls, collecting the concatenated event
trace. -/
def runFetches (s : ReqState) : List String → ReqState × List FetchEv
  | [] => (s, [])
  | u :: us =>
    let p := fetchResultSync s u
    let q := runFetches p.1 us
    (q.1, p.2 ++ q.2)

/-- Whether a request was started under token `t` somewhere in the trace. -/
def startedTok (tr : List FetchEv) (t : Nat) : Bool :=
  tr.any fun e =>
    match e with
    | .fetchStart t2 _ => t2 = t
    | _ => false

/-- Whether token `t` was aborted somewhere in the trace. -/
def abortedTok (tr : List FetchEv) (t : Nat) : Bool :=
  tr.any fun e =>
    match e with
    | .abortSignal t2 => t2 = t
    | _ => false

/-- The event trace of `fetchResult(urlA)` followed by `fetchResult(urlB)`. -/
def twoFetchTrace (s : ReqState) (urlA urlB : String) : List FetchEv :=
  (runFetches s [urlA, urlB]).2

/-! ## Responses, the sanitizer policy, and the part of `fetchResult` after
the `await fetch` suspension point. -/

/-- An HTTP response as consumed by `fetchResult`: its status and the body
text returned by `res.text()`.  `ok` is the Fetch-standard predicate
(status in 200..299). -/
structure Response where
  status : Nat
  body : String
  deriving DecidableEq, Repr

/-- Predicate `Response.ok` of the Fetch standard. -/
def Response.ok (r : Response) : Bool :=
  decide (200 ≤ r.status) && decide (r.status ≤ 299)

/-- The opaque value produced by a policy's `createHTML`; only its string
conversion is observable (`CSPTrustedHTMLToStringable`). -/
structure CSPTrustedHTML where
  html : String
  deriving DecidableEq, Repr

/-- The observable string conversion (`toString`) of a trusted value. -/
def CSPTrustedHTML.toStr (h : CSPTrustedHTML) : String :=
  h.html

/-- A sanitizer policy (`CSPTrustedTypesPolicy`): converts the raw response
text, together with the response object, into a trusted value. -/
structure CSPTrustedTypesPolicy where
  createHTML : String → Response → CSPTrustedHTML

/-- The union `string | CSPTrustedHTMLToStringable` returned by
`fetchResult`. -/
inductive FetchOutput where
  | text (s : String)
  | trusted (h : CSPTrustedHTML)
  deriving DecidableEq, Repr

/-- The observable string conversion of a `fetchResult` return value. -/
def FetchOutput.toStr : FetchOutput → String
  | .text s => s
  | .trusted h => h.html

/-- The module-level mutable binding `cspTrustedTypesPolicyPromise`
(source line 30); promise resolution is abstracted away, so it holds the
policy value or `none`. -/
structure PolicyGlobal where
  cspTrustedTypesPolicyPromise : Option CSPTrustedTypesPolicy

/-- Model of `AutoCompleteElement.setCSPTrustedTypesPolicy` (source lines 38-40):
overwrite the module-level binding. -/
def setCSPTrustedTypesPolicy (g : PolicyGlobal)
    (policy : Option CSPTrustedTypesPolicy) : PolicyGlobal :=
  { g with cspTrustedTypesPolicyPromise := policy }

/-- The continuation of `fetchResult` after `await fetch` resumes with the
response (source lines 163-170): on a non-ok response throw an error whose
message is the body text; otherwise read the module-level policy binding
HERE (it is only consulted after the fetch suspension point) and either
sanitize the body or return it raw. -/
def fetchResultAfterResponse (g : PolicyGlobal) (res : Response) :
    Except String FetchOutput :=
  if !res.ok then
    Except.error res.body
  else
    match g.cspTrustedTypesPolicyPromise with
    | some p => Except.ok (FetchOutput.trusted (p.createHTML res.body res))
    | none => Except.ok (FetchOutput.text res.body)

/-- Where a single `fetchResult` call stands: suspended at `await fetch`
(with `res` the response that will eventually arrive), or finished with its
outcome. -/
inductive FetchPhase where
  | awaitingFetch (res : Response)
  | completed (r : Except String FetchOutput)

/-- The world seen while one `fetchResult` call is in flight: the
module-level policy binding and the call's phase. -/
structure FetchWorld where
  globalPolicy : PolicyGlobal
  phase : FetchPhase

/-- What can happen while the call is suspended: some other code replaces
the policy, or the response arrives and the call resumes. -/
inductive WorldAct where
  | replacePolicy (p : Option CSPTrustedTypesPolicy)
  | respond

/-- Interleaving semantics: policy replacement mutates the module-level
binding; resumption runs the continuation against the binding as it is at
that moment. -/
def worldStep (w : FetchWorld) (a : WorldAct) : FetchWorld :=
  match a with
  | .replacePolicy p => { w with globalPolicy := setCSPTrustedTypesPolicy w.globalPolicy p }
  | .respond =>
    match w.phase with
    | .awaitingFetch res =>
      { w with phase := .completed (fetchResultAfterResponse w.globalPolicy res) }
    | .completed r => { w with phase := .completed r }

/-- A `fetchResult` call that has passed its synchronous prologue and is
suspended at `await fetch`, in a world whose policy binding is `g`. -/
def startFetch (g : PolicyGlobal) (res : Response) : FetchWorld where
  globalPolicy := g
  phase := .awaitingFetch res

/-! ## Host attribute property getters (source lines 108-130). -/

/-- The JS idiom `this.getAttribute(name) || two`, specialised to the empty
string fallback: `null` and the empty string are both falsy. -/
def getAttrOrEmpty (attrs : String → Option String) (name : String) : String :=
  match attrs name with
  | some s => if s = r"" then r"" else s
  | none => r""

/-- The `value` property getter (source lines 116-118). -/
def valueGet (d : Dom) : String :=
  getAttrOrEmpty d.attrs r"value"

/-- The `dataValue` property getter (source lines 124-126). -/
def dataValueGet (d : Dom) : String :=
  getAttrOrEmpty d.attrs r"data-value"

/-- The `src` property getter (source lines 108-110). -/
def srcGet (d : Dom) : String :=
  getAttrOrEmpty d.attrs r"src"

/-! ## Well-formedness of a host state and the single-live-engine invariant. -/

/-- Every constructed engine id is below the fresh-id counter. -/
@[reducible] def eidsBounded (s : HostState) : Prop :=
  ∀ e ∈ s.engines, e.eid < s.nextId

/-- Engine ids are pairwise distinct. -/
@[reducible] def eidsNodup (s : HostState) : Prop :=
  (s.engines.map EngineRec.eid).Nodup

/-- Every live engine is the one stored in the WeakMap entry. -/
@[reducible] def liveIsAssoc (s : HostState) : Prop :=
  ∀ e ∈ s.engines, e.destroyed = false → s.assoc = some e.eid

/-- Host-state well-formedness, preserved by every operation. -/
@[reducible] def WF (s : HostState) : Prop :=
  eidsBounded s ∧ eidsNodup s ∧ liveIsAssoc s

/-! ## Auxiliary definitions used by the theorems below: the target of a
dispatched effect, effect counting, uppercasing and tagging policies, and
concrete host states exercising the callbacks. -/

/-- An effect is addressed to engine `eng`: the commands carry its object
identity, the change notification carries its visible input. -/
def effTargetsEngine (eng : EngineRec) : Eff → Prop
  | .engClose eid => eid = eng.eid
  | .engOpen eid => eid = eng.eid
  | .writeHidden eid _ => eid = eng.eid
  | .writeInput eid _ => eid = eng.eid
  | .changeEvent rt => rt = eng.input

/-- Number of visible-input writes in an effect trace. -/
def countWrites (effs : List Eff) : Nat :=
  (effs.filter fun e =>
    match e with
    | .writeInput _ _ => true
    | _ => false).length

/-- Number of change notifications in an effect trace. -/
def countChangeEvents (effs : List Eff) : Nat :=
  (effs.filter fun e =>
    match e with
    | .changeEvent _ => true
    | _ => false).length

/-- Character-wise upper-casing (used for concrete sanitizer policies). -/
def upperStr (s : String) : String :=
  ⟨s.data.map Char.toUpper⟩

/-- A sanitizer policy that upper-cases the fetched text. -/
def upperPolicy : CSPTrustedTypesPolicy where
  createHTML := fun s _ => ⟨upperStr s⟩

/-- A sanitizer policy that tags its input, to tell policies apart. -/
def tagPolicy (tag : String) : CSPTrustedTypesPolicy where
  createHTML := fun s _ => ⟨tag ++ s⟩

/-- A host DOM in which the `for` attribute resolves to element 2 and the
subtree query finds input element 1. -/
def resolvedDom : Dom where
  attrs := fun n => if n = r"for" then some r"list" else none
  explicitFor := none
  explicitInput := none
  explicitHidden := none
  connected := fun _ => true
  hostConnected := true
  rootIsDocOrShadow := true
  rootGetById := fun i => if i = r"list" then some ⟨2⟩ else none
  queryInput := some ⟨1⟩
  queryHidden := none

/-- An engine recorded with a stale results element (id 9), so the rebind
check fires against `resolvedDom`. -/
def staleEngine : EngineRec where
  eid := 0
  input := ⟨1⟩
  hiddenInput := none
  results := ⟨9⟩
  autoselect := false
  destroyed := false

/-- Host with a live but stale-bound engine: the rebind check fires on the
next qualifying mutation. -/
def c2State : HostState where
  dom := resolvedDom
  assoc := some 0
  engines := [staleEngine]
  nextId := 1

/-- An engine matching `resolvedDom` exactly (input 1, results 2). -/
def matchedEngine : EngineRec where
  eid := 0
  input := ⟨1⟩
  hiddenInput := none
  results := ⟨2⟩
  autoselect := false
  destroyed := false

/-- Host with a live engine whose recorded bindings equal the current
resolution: no rebind occurs on mutations. -/
def c8State : HostState where
  dom := resolvedDom
  assoc := some 0
  engines := [matchedEngine]
  nextId := 1

/-- Host with a live engine whose DOM no longer resolves any binding
(detached surroundings): `#reattachState` will stop after destroying. -/
def c3State : HostState where
  dom := emptyDom
  assoc := some 0
  engines := [matchedEngine]
  nextId := 1

/-- The effect trace of setting the `value` attribute to `"abc"` and then
removing it, on a host with a live, correctly bound engine. -/
def c8Effs : List Eff :=
  (attributeChangedCallback c8State r"value" none (some r"abc")).2 ++
    (attributeChangedCallback
      ((attributeChangedCallback c8State r"value" none (some r"abc")).1)
      r"value" (some r"abc") none).2

/-- A host DOM carrying a `value` and a `data-value` attribute but no `src`
attribute (for exercising the property getters). -/
def c10Dom : Dom :=
  { emptyDom with
    attrs := fun n =>
      if n = r"value" then some r"abc"
      else if n = r"data-value" then some r"xyz"
      else none }

theorem eid_destroyEngine (l : List EngineRec) (k : Nat) :
    (destroyEngine l k).map EngineRec.eid = l.map EngineRec.eid := by
  induction l with
  | nil => rfl
  | cons e t ih =>
    by_cases h : e.eid = k <;> simp [destroyEngine, h] at ih ⊢ <;> exact ih

theorem destroyEngine_all_destroyed {l : List EngineRec} {k : Nat}
    (h : ∀ e ∈ l, e.destroyed = false → e.eid = k) :
    ∀ e ∈ destroyEngine l k, e.destroyed = true := by
  intro e he
  rw [destroyEngine, List.mem_map] at he
  obtain ⟨a, ha, rfl⟩ := he
  by_cases hk : a.eid = k
  · simp [hk]
  · rw [if_neg hk]
    cases hd : a.destroyed with
    | false => exact absurd (h a ha hd) hk
    | true => rfl

theorem reattachDestroyPhase_nextId (s : HostState) :
    (reattachDestroyPhase s).nextId = s.nextId := by
  rw [reattachDestroyPhase]
  split <;> rfl

theorem reattachDestroyPhase_map_eid (s : HostState) :
    (reattachDestroyPhase s).engines.map EngineRec.eid
      = s.engines.map EngineRec.eid := by
  rw [reattachDestroyPhase]
  split <;> simp [eid_destroyEngine]

theorem eidsBounded_of_eq {s s' : HostState}
    (hmap : s'.engines.map EngineRec.eid = s.engines.map EngineRec.eid)
    (hnext : s'.nextId = s.nextId) (hb : eidsBounded s) : eidsBounded s' := by
  intro e he
  have hmem : e.eid ∈ s'.engines.map EngineRec.eid := List.mem_map_of_mem _ he
  rw [hmap, List.mem_map] at hmem
  obtain ⟨e0, he0, heq⟩ := hmem
  rw [hnext, ← heq]
  exact hb e0 he0

theorem eidsNodup_of_eq {s s' : HostState}
    (hmap : s'.engines.map EngineRec.eid = s.engines.map EngineRec.eid)
    (hn : eidsNodup s) : eidsNodup s' := by
  rw [eidsNodup, hmap]
  exact hn

/-- After the destroy phase of `#reattachState`, no live engine exists:
the destroy call happens before any construction. -/
theorem noLive_reattachDestroyPhase {s : HostState} (hl : liveIsAssoc s) :
    ∀ e ∈ (reattachDestroyPhase s).engines, e.destroyed = true := by
  intro e he
  rw [reattachDestroyPhase] at he
  cases hassoc : s.assoc with
  | none =>
    rw [hassoc] at he
    cases hd : e.destroyed with
    | false =>
      have := hl e he hd
      rw [hassoc] at this
      exact absurd this (by simp)
    | true => rfl
  | some A =>
    rw [hassoc] at he
    refine destroyEngine_all_destroyed ?_ e he
    intro e0 he0 hd0
    have := hl e0 he0 hd0
    rw [hassoc] at this
    exact (Option.some.injEq _ _ ▸ this).symm

theorem wf_reattachBuildPhase {s : HostState} (hb : eidsBounded s)
    (hn : eidsNodup s) (hdead : ∀ e ∈ s.engines, e.destroyed = true) :
    WF (reattachBuildPhase s) := by
  rw [reattachBuildPhase]
  split
  · refine ⟨?_, ?_, ?_⟩
    · intro e he
      rw [List.mem_append] at he
      rcases he with he | he
      · exact Nat.lt_succ_of_lt (hb e he)
      · simp at he
        rw [he]
        exact Nat.lt_succ_self _
    · rw [eidsNodup, List.map_append, List.nodup_append]
      refine ⟨hn, by simp, ?_⟩
      intro a ha
      rw [List.mem_map] at ha
      obtain ⟨e0, he0, heq⟩ := ha
      have := hb e0 he0
      simp only [List.mem_singleton, List.map_cons, List.map_nil, List.mem_cons,
        List.not_mem_nil, or_false]
      intro hcon
      rw [heq] at this
      rw [hcon] at this
      exact Nat.lt_irrefl _ this
    · intro e he hd
      rw [List.mem_append] at he
      rcases he with he | he
      · exact absurd (hdead e he) (by simp [hd])
      · simp at he
        rw [he]
  · exact ⟨hb, hn, fun e he hd => absurd (hdead e he) (by simp [hd])⟩

theorem wf_reattachState {s : HostState} (h : WF s) : WF (reattachState s) := by
  obtain ⟨hb, hn, hl⟩ := h
  rw [reattachState]
  exact wf_reattachBuildPhase
    (eidsBounded_of_eq (reattachDestroyPhase_map_eid s) (reattachDestroyPhase_nextId s) hb)
    (eidsNodup_of_eq (reattachDestroyPhase_map_eid s) hn)
    (noLive_reattachDestroyPhase hl)

theorem wf_connectedCallback {s : HostState} (h : WF s) :
    WF (connectedCallback s) := by
  rw [connectedCallback]
  split
  · exact wf_reattachState h
  · exact h

theorem wf_disconnectedCallback {s : HostState} (h : WF s) :
    WF (disconnectedCallback s) := by
  obtain ⟨hb, hn, hl⟩ := h
  rw [disconnectedCallback]
  split
  next A heq =>
    have hmap : (destroyEngine s.engines A).map EngineRec.eid
        = s.engines.map EngineRec.eid := eid_destroyEngine s.engines A
    refine ⟨?_, ?_, ?_⟩
    · exact eidsBounded_of_eq hmap rfl hb
    · exact eidsNodup_of_eq hmap hn
    · intro e he hd
      have hdead : ∀ e0 ∈ destroyEngine s.engines A, e0.destroyed = true := by
        refine destroyEngine_all_destroyed ?_
        intro e0 he0 hd0
        have := hl e0 he0 hd0
        rw [heq] at this
        exact (Option.some.injEq _ _ ▸ this).symm
      exact absurd (hdead e he) (by simp [hd])
  next => exact ⟨hb, hn, hl⟩

/-- Lemma: `attributeChangedCallback` either leaves the state alone or performs
exactly a `#reattachState`. -/
theorem attributeChangedCallback_fst (s : HostState) (n : String)
    (o v : Option String) :
    (attributeChangedCallback s n o v).1 = s ∨
    (attributeChangedCallback s n o v).1 = reattachState s := by
  rw [attributeChangedCallback]
  split
  · exact Or.inl rfl
  · split
    · exact Or.inl rfl
    · dsimp only
      split
      · exact Or.inr rfl
      · exact Or.inl rfl

theorem wf_step {s : HostState} (h : WF s) (op : Op) : WF (step s op) := by
  cases op with
  | connect => exact wf_connectedCallback h
  | disconnect => exact wf_disconnectedCallback h
  | attrChange n o v =>
    rcases attributeChangedCallback_fst s n o v with heq | heq
    · rw [step, heq]; exact h
    · rw [step, heq]; exact wf_reattachState h
  | setInput e => exact wf_reattachState h
  | setHidden e => exact wf_reattachState h
  | domMutate d => exact h

theorem wf_run {s : HostState} (h : WF s) (ops : List Op) : WF (run s ops) := by
  induction ops generalizing s with
  | nil => exact h
  | cons op t ih => exact ih (wf_step h op)

theorem wf_initState : WF initState := by decide

theorem nodup_all_eq_length_le_one {l : List Nat} {a : Nat}
    (hnd : l.Nodup) (hc : ∀ x ∈ l, x = a) : l.length ≤ 1 := by
  match l, hnd with
  | [], _ => simp
  | [x], _ => simp
  | x :: y :: t, hnd =>
    exfalso
    have hx := hc x (by simp)
    have hy := hc y (by simp)
    rw [List.nodup_cons] at hnd
    exact hnd.1 (by simp [hx, hy])

/-- A well-formed host state has at most one live engine. -/
theorem liveCount_le_one {s : HostState} (h : WF s) : liveCount s ≤ 1 := by
  obtain ⟨hb, hn, hl⟩ := h
  cases hassoc : s.assoc with
  | none =>
    have hnil : liveEngines s = [] := by
      rw [liveEngines, List.filter_eq_nil_iff]
      intro e he hlive
      rw [Bool.not_eq_true'] at hlive
      have := hl e he hlive
      rw [hassoc] at this
      exact absurd this (by simp)
    rw [liveCount, hnil]
    simp
  | some A =>
    have hsub : List.Sublist ((liveEngines s).map EngineRec.eid)
        (s.engines.map EngineRec.eid) :=
      List.Sublist.map EngineRec.eid (List.filter_sublist s.engines)
    have hnd : ((liveEngines s).map EngineRec.eid).Nodup := hn.sublist hsub
    have hc : ∀ x ∈ (liveEngines s).map EngineRec.eid, x = A := by
      intro x hx
      rw [List.mem_map] at hx
      obtain ⟨e, he, heq⟩ := hx
      rw [liveEngines, List.mem_filter] at he
      have hd : e.destroyed = false := by
        have h2 := he.2
        rw [Bool.not_eq_true'] at h2
        exact h2
      have := hl e he.1 hd
      rw [hassoc] at this
      rw [← heq]
      exact ((Option.some.injEq _ _ ▸ this)).symm
    have := nodup_all_eq_length_le_one hnd hc
    rw [List.length_map] at this
    exact this

/-- Claim C1: for every sequence of connect, disconnect, observed-attribute
and binding mutations, at most one live (non-destroyed) engine instance
exists for the host; and within a `#reattachState` invocation the destroy
phase leaves zero live engines before the build phase constructs the new
one, so no two live engines coexist even transiently. -/
theorem c1_at_most_one_live_engine (ops : List Op) :
    liveCount (run initState ops) ≤ 1 ∧
    liveCount (reattachDestroyPhase (run initState ops)) = 0 := by
  have hwf := wf_run wf_initState ops
  refine ⟨liveCount_le_one hwf, ?_⟩
  have hdead := noLive_reattachDestroyPhase hwf.2.2
  rw [liveCount, liveEngines, List.length_eq_zero, List.filter_eq_nil_iff]
  intro e he
  simp [hdead e he]

theorem reattachDestroyPhase_dom (s : HostState) :
    (reattachDestroyPhase s).dom = s.dom := by
  rw [reattachDestroyPhase]
  split <;> rfl

theorem reattachDestroyPhase_assoc (s : HostState) :
    (reattachDestroyPhase s).assoc = s.assoc := by
  rw [reattachDestroyPhase]
  split <;> rfl

theorem liveCount_eq_zero_of_all_destroyed {s : HostState}
    (h : ∀ e ∈ s.engines, e.destroyed = true) : liveCount s = 0 := by
  rw [liveCount, liveEngines, List.length_eq_zero, List.filter_eq_nil_iff]
  intro e he
  simp [h e he]

/-- Claim C2 (counterexample): on host `c2State` — live engine 0 recorded
with results element 9 while the DOM now resolves the `for`-target to
element 2 — the `open` mutation triggers the rebuild (engine 1 is stored
afterwards), but the `open()` command is dispatched to the captured engine
0, not to the engine that exists after the rebuild. -/
theorem c2_counterexample :
    (attributeChangedCallback c2State r"open" none (some r"")).2
      = [Eff.engOpen 0] ∧
    ((attributeChangedCallback c2State r"open" none (some r"")).1).assoc
      = some 1 ∧
    stateGet ((attributeChangedCallback c2State r"open" none (some r"")).1)
      = some { eid := 1, input := ⟨1⟩, hiddenInput := none, results := ⟨2⟩,
               autoselect := false, destroyed := false } := by
  refine ⟨by decide, by decide, by decide⟩

/-- Claim C2 (amended): for every observed-attribute mutation with old
value different from new value on a host with a stored engine, if the
currently resolved `for`-target differs from the engine's results element
or the currently resolved input differs from the engine's input, then
`#reattachState` runs first — but every per-attribute command and the
change notification are dispatched to the engine object captured at
callback entry (the pre-rebuild engine), not to the engine existing after
the rebuild. -/
theorem c2_rebind_then_dispatch_to_captured_engine (s : HostState)
    (name : String) (oldV newV : Option String) (eng : EngineRec)
    (hne : oldV ≠ newV) (hget : stateGet s = some eng)
    (hreb : rebindNeeded s eng = true) :
    (attributeChangedCallback s name oldV newV).1 = reattachState s ∧
    ∀ eff ∈ (attributeChangedCallback s name oldV newV).2,
      effTargetsEngine eng eff := by
  rw [attributeChangedCallback, if_neg hne, hget]
  dsimp only
  simp only [hreb, eq_self_iff_true, if_true]
  refine ⟨trivial, ?_⟩
  intro eff heff
  by_cases h1 : name = r"open"
  · rw [if_pos h1] at heff
    cases newV with
    | none =>
      simp at heff
      subst heff
      simp [effTargetsEngine]
    | some v =>
      simp at heff
      subst heff
      simp [effTargetsEngine]
  · rw [if_neg h1] at heff
    by_cases h2 : name = r"data-value"
    · rw [if_pos h2] at heff
      simp at heff
      subst heff
      simp [effTargetsEngine]
    · rw [if_neg h2] at heff
      by_cases h3 : name = r"value"
      · rw [if_pos h3] at heff
        cases newV with
        | none =>
          simp at heff
          subst heff
          simp [effTargetsEngine]
        | some v =>
          simp at heff
          rcases heff with heff | heff <;> subst heff <;> simp [effTargetsEngine]
      · rw [if_neg h3] at heff
        exact absurd heff (List.not_mem_nil eff)

/-- Witness for the amended C2 at the concrete host `c2State`. -/
theorem c2_witness :
    (attributeChangedCallback c2State r"open" none (some r"")).1
      = reattachState c2State ∧
    ∀ eff ∈ (attributeChangedCallback c2State r"open" none (some r"")).2,
      effTargetsEngine staleEngine eff :=
  c2_rebind_then_dispatch_to_captured_engine c2State r"open" none (some r"")
    staleEngine (by decide) (by decide) (by decide)

/-- Claim C3 (counterexample): on host `c3State` — live engine 0 whose DOM
no longer resolves any binding — `#reattachState` destroys the engine but
does NOT clear the association: the WeakMap entry still holds the
(destroyed) engine afterwards, contradicting "its association cleared" and
"no engine remains associated with the host afterwards". -/
theorem c3_counterexample :
    (reattachState c3State).assoc = some 0 ∧
    stateGet (reattachState c3State)
      = some { eid := 0, input := ⟨1⟩, hiddenInput := none, results := ⟨2⟩,
               autoselect := false, destroyed := true } := by
  refine ⟨by decide, by decide⟩

/-- Claim C3 (amended): whenever `#reattachState` runs on a well-formed
host whose `for`-target or input element does not resolve, every existing
live engine is destroyed, the call returns silently without constructing a
new engine (engine ids and the fresh-id counter are unchanged), and no live
engine remains — but the stale WeakMap association is left in place rather
than cleared. -/
theorem c3_reattach_missing_bindings (s : HostState) (h : WF s)
    (habs : forElement s.dom = none ∨ inputElement s.dom = none) :
    liveCount (reattachState s) = 0 ∧
    (reattachState s).engines.map EngineRec.eid
      = s.engines.map EngineRec.eid ∧
    (reattachState s).nextId = s.nextId ∧
    (reattachState s).assoc = s.assoc := by
  obtain ⟨hb, hn, hl⟩ := h
  have hdead := noLive_reattachDestroyPhase hl
  have hstop : reattachState s = reattachDestroyPhase s := by
    rw [reattachState, reattachBuildPhase]
    split
    next fe ie hfe hie =>
      rw [reattachDestroyPhase_dom] at hfe hie
      rcases habs with habs | habs
      · rw [habs] at hfe
        exact absurd hfe (by simp)
      · rw [habs] at hie
        exact absurd hie (by simp)
    next => rfl
  rw [hstop]
  exact ⟨liveCount_eq_zero_of_all_destroyed hdead,
    reattachDestroyPhase_map_eid s, reattachDestroyPhase_nextId s,
    reattachDestroyPhase_assoc s⟩

/-- Witness for the amended C3 at the concrete host `c3State`. -/
theorem c3_witness :
    liveCount (reattachState c3State) = 0 ∧
    (reattachState c3State).engines.map EngineRec.eid
      = c3State.engines.map EngineRec.eid ∧
    (reattachState c3State).nextId = c3State.nextId ∧
    (reattachState c3State).assoc = c3State.assoc :=
  c3_reattach_missing_bindings c3State (by decide) (Or.inl (by decide))

/-! ## Request controller theorems (C4). -/

theorem startedTok_append (t1 t2 : List FetchEv) (t : Nat) :
    startedTok (t1 ++ t2) t = (startedTok t1 t || startedTok t2 t) := by
  rw [startedTok, startedTok, startedTok, List.any_append]

theorem abortedTok_append (t1 t2 : List FetchEv) (t : Nat) :
    abortedTok (t1 ++ t2) t = (abortedTok t1 t || abortedTok t2 t) := by
  rw [abortedTok, abortedTok, abortedTok, List.any_append]

/-- One `fetchResult` prologue preserves the trace invariant "every started
but unaborted token is the held controller's token". -/
theorem reqInv_step {s : ReqState} {tr : List FetchEv} (u : String)
    (h : ∀ t, startedTok tr t = true → abortedTok tr t = false →
      s.current = some t) :
    ∀ t, startedTok (tr ++ (fetchResultSync s u).2) t = true →
      abortedTok (tr ++ (fetchResultSync s u).2) t = false →
      (fetchResultSync s u).1.current = some t := by
  intro t hst hab
  rw [startedTok_append] at hst
  rw [abortedTok_append] at hab
  rw [fetchResultSync]
  dsimp only
  by_cases hts : t = s.next
  · rw [hts]
  · exfalso
    have hstOld : startedTok tr t = true := by
      rcases Bool.or_eq_true_iff.mp hst with h1 | h1
      · exact h1
      · exfalso
        rw [fetchResultSync] at h1
        dsimp only at h1
        rw [startedTok_append] at h1
        rcases Bool.or_eq_true_iff.mp h1 with h2 | h2
        · cases hc : s.current with
          | none => rw [hc] at h2; exact absurd h2 (by simp [startedTok])
          | some t0 => rw [hc] at h2; exact absurd h2 (by simp [startedTok])
        · rw [startedTok] at h2
          simp at h2
          exact hts h2.symm
    have habOld : abortedTok tr t = false := by
      cases habo : abortedTok tr t with
      | false => rfl
      | true => rw [Bool.or_eq_true_iff.mpr (Or.inl habo)] at hab; exact absurd hab (by simp)
    have hcur := h t hstOld habOld
    rw [fetchResultSync] at hab
    dsimp only at hab
    rw [abortedTok_append, hcur] at hab
    have : abortedTok [FetchEv.abortSignal t] t = true := by simp [abortedTok]
    rw [Bool.or_eq_true_iff.mpr (Or.inl this)] at hab
    exact absurd hab (by simp)

/-- The invariant holds after any sequence of `fetchResult` calls. -/
theorem reqInv_runFetches (urls : List String) (s : ReqState)
    (tr : List FetchEv)
    (h : ∀ t, startedTok tr t = true → abortedTok tr t = false →
      s.current = some t) :
    ∀ t, startedTok (tr ++ (runFetches s urls).2) t = true →
      abortedTok (tr ++ (runFetches s urls).2) t = false →
      (runFetches s urls).1.current = some t := by
  induction urls generalizing s tr with
  | nil =>
    intro t hst hab
    rw [runFetches] at hst hab ⊢
    rw [List.append_nil] at hst hab
    exact h t hst hab
  | cons u us ih =>
    intro t hst hab
    rw [runFetches] at hst hab ⊢
    dsimp only at hst hab ⊢
    rw [← List.append_assoc] at hst hab
    exact ih (fetchResultSync s u).1 (tr ++ (fetchResultSync s u).2)
      (reqInv_step u h) t hst hab

/-- The exact event order of two back-to-back `fetchResult` calls. -/
theorem twoFetchTrace_eq (s : ReqState) (urlA urlB : String) :
    twoFetchTrace s urlA urlB =
      (match s.current with
        | some t => [FetchEv.abortSignal t]
        | none => []) ++
      [FetchEv.fetchStart s.next urlA, FetchEv.abortSignal s.next,
        FetchEv.fetchStart (s.next + 1) urlB] := by
  rw [twoFetchTrace, runFetches, runFetches, runFetches]
  dsimp only
  rw [fetchResultSync, fetchResultSync]
  cases s.current <;> simp

/-- Claim C4: every `fetchResult` call aborts the previous controller
synchronously before its own network request starts: in the trace of
`fetchResult(urlA)` followed by `fetchResult(urlB)`, the abort signal of
urlA's token fires before urlB's request starts (order-preserving sublist);
and after any sequence of calls from a fresh controller, every started,
unaborted token is the single currently-held one — at most one logically
current request exists. -/
theorem c4_abort_precedes_next_fetch (s : ReqState) (urlA urlB : String)
    (urls : List String) :
    List.Sublist
      [FetchEv.abortSignal s.next, FetchEv.fetchStart (s.next + 1) urlB]
      (twoFetchTrace s urlA urlB) ∧
    (∀ t, startedTok (runFetches initReq urls).2 t = true →
      abortedTok (runFetches initReq urls).2 t = false →
      (runFetches initReq urls).1.current = some t) := by
  constructor
  · rw [twoFetchTrace_eq]
    refine List.Sublist.trans ?_ (List.sublist_append_right _ _)
    exact List.Sublist.cons _ (List.Sublist.cons₂ _
      (List.Sublist.cons₂ _ (List.Sublist.slnil)))
  · intro t hst hab
    have h0 : ∀ t0, startedTok [] t0 = true → abortedTok [] t0 = false →
        initReq.current = some t0 := by
      intro t0 h1 h2
      exact absurd h1 (by simp [startedTok])
    have := reqInv_runFetches urls initReq [] h0 t
    rw [List.nil_append] at this
    exact this hst hab

/-- Witness for C4 at two concrete calls from a fresh controller. -/
theorem c4_witness :
    List.Sublist [FetchEv.abortSignal 0, FetchEv.fetchStart 1 r"b"]
      (twoFetchTrace initReq r"a" r"b") ∧
    (runFetches initReq [r"a", r"b"]).1.current = some 1 :=
  ⟨(c4_abort_precedes_next_fetch initReq r"a" r"b" [r"a", r"b"]).1,
    (c4_abort_precedes_next_fetch initReq r"a" r"b" [r"a", r"b"]).2 1
      (by decide) (by decide)⟩

/-! ## Sanitizer policy timing (C5), fetch error and success paths (C6, C7). -/

/-- Claim C5 (counterexample): with the tagging policy P1 installed a fetch
suspends at `await fetch`; the policy is replaced by P2 while the call is in
flight; the call completes using P2, not the policy reference P1 captured at
its own start — the module-level binding is only read after the await, so
the replacement does retroactively affect the in-flight call. -/
theorem c5_counterexample :
    (worldStep (worldStep (startFetch ⟨some (tagPolicy r"P1:")⟩
          ⟨200, r"hello"⟩)
        (WorldAct.replacePolicy (some (tagPolicy r"P2:"))))
        WorldAct.respond).phase
      = FetchPhase.completed
          (Except.ok (FetchOutput.trusted ⟨r"P2:hello"⟩)) ∧
    fetchResultAfterResponse ⟨some (tagPolicy r"P1:")⟩ ⟨200, r"hello"⟩
      = Except.ok (FetchOutput.trusted ⟨r"P1:hello"⟩) ∧
    (⟨r"P2:hello"⟩ : CSPTrustedHTML) ≠ ⟨r"P1:hello"⟩ := by
  refine ⟨rfl, rfl, by decide⟩

/-- Claim C5 (amended): an in-flight `fetchResult` call completes using the
policy binding as it stands when the response is processed — the global is
read after the `await fetch` suspension point — so a replacement during
flight does affect the call, whatever policy was installed at its start. -/
theorem c5_policy_read_after_await (g : PolicyGlobal)
    (p2 : Option CSPTrustedTypesPolicy) (res : Response) :
    (worldStep (worldStep (startFetch g res) (WorldAct.replacePolicy p2))
        WorldAct.respond).phase
      = FetchPhase.completed (fetchResultAfterResponse ⟨p2⟩ res) := rfl

/-- Claim C6: a non-success response makes `fetchResult` throw an error
whose message is the response body text. -/
theorem c6_non_success_error_is_body (g : PolicyGlobal) (res : Response)
    (h : res.ok = false) :
    fetchResultAfterResponse g res = Except.error res.body := by
  rw [fetchResultAfterResponse, h]
  exact rfl

/-- Witness for C6: HTTP 404 with body `not found` yields an error with
message `not found`. -/
theorem c6_witness :
    Response.ok ⟨404, r"not found"⟩ = false ∧
    fetchResultAfterResponse ⟨none⟩ ⟨404, r"not found"⟩
      = Except.error r"not found" :=
  ⟨by decide, c6_non_success_error_is_body ⟨none⟩ ⟨404, r"not found"⟩ (by decide)⟩

/-- Claim C7: on a successful response, with a policy configured the result
is the policy's conversion of the response text and the response object;
with no policy configured the raw response text is returned. -/
theorem c7_success_sanitize_or_raw (g : PolicyGlobal) (res : Response)
    (h : res.ok = true) :
    (∀ p, g.cspTrustedTypesPolicyPromise = some p →
      fetchResultAfterResponse g res
        = Except.ok (FetchOutput.trusted (p.createHTML res.body res))) ∧
    (g.cspTrustedTypesPolicyPromise = none →
      fetchResultAfterResponse g res
        = Except.ok (FetchOutput.text res.body)) := by
  constructor
  · intro p hp
    rw [fetchResultAfterResponse, h, hp]
    exact rfl
  · intro hp
    rw [fetchResultAfterResponse, h, hp]
    exact rfl

/-- Witness for C7: an upper-casing policy and body `hello` produce a value
whose text conversion is `HELLO`; with no policy the raw text comes back. -/
theorem c7_witness :
    Response.ok ⟨200, r"hello"⟩ = true ∧
    fetchResultAfterResponse ⟨some upperPolicy⟩ ⟨200, r"hello"⟩
      = Except.ok (FetchOutput.trusted
          (upperPolicy.createHTML r"hello" ⟨200, r"hello"⟩)) ∧
    (FetchOutput.trusted
      (upperPolicy.createHTML r"hello" ⟨200, r"hello"⟩)).toStr = r"HELLO" ∧
    fetchResultAfterResponse ⟨none⟩ ⟨200, r"hello"⟩
      = Except.ok (FetchOutput.text r"hello") :=
  ⟨by decide,
    (c7_success_sanitize_or_raw ⟨some upperPolicy⟩ ⟨200, r"hello"⟩
      (by decide)).1 upperPolicy rfl,
    by decide,
    (c7_success_sanitize_or_raw ⟨none⟩ ⟨200, r"hello"⟩ (by decide)).2 rfl⟩

/-! ## Attribute reaction dispatcher theorems (C8, C9) and getters (C10). -/

/-- Claim C8: a qualifying `value` mutation on a host with a stored engine
writes the new string to the engine's visible input and then dispatches the
change notification; a transition to null skips the write but still
notifies; setting `value` to `abc` then removing it produces exactly one
visible-input write and two change notifications. -/
theorem c8_value_mutation_behaviour :
    (∀ s eng oldV v, stateGet s = some eng → oldV ≠ some v →
      (attributeChangedCallback s r"value" oldV (some v)).2
        = [Eff.writeInput eng.eid v, Eff.changeEvent eng.input]) ∧
    (∀ s eng oldV, stateGet s = some eng → oldV ≠ none →
      (attributeChangedCallback s r"value" oldV none).2
        = [Eff.changeEvent eng.input]) ∧
    countWrites c8Effs = 1 ∧
    countChangeEvents c8Effs = 2 ∧
    c8Effs = [Eff.writeInput 0 r"abc", Eff.changeEvent ⟨1⟩,
      Eff.changeEvent ⟨1⟩] := by
  refine ⟨?_, ?_, by decide, by decide, by decide⟩
  · intro s eng oldV v hget hne
    rw [attributeChangedCallback, if_neg hne, hget]
    dsimp only
    rw [if_neg (by decide : ¬(r"value" : String) = r"open"),
      if_neg (by decide : ¬(r"value" : String) = r"data-value"),
      if_pos (rfl : (r"value" : String) = r"value")]
    exact rfl
  · intro s eng oldV hget hne
    rw [attributeChangedCallback, if_neg hne, hget]
    dsimp only
    rw [if_neg (by decide : ¬(r"value" : String) = r"open"),
      if_neg (by decide : ¬(r"value" : String) = r"data-value"),
      if_pos (rfl : (r"value" : String) = r"value")]
    exact rfl

/-- Witness for C8 at the concrete host `c8State`. -/
theorem c8_witness :
    (attributeChangedCallback c8State r"value" none (some r"abc")).2
      = [Eff.writeInput 0 r"abc", Eff.changeEvent ⟨1⟩] :=
  c8_value_mutation_behaviour.1 c8State matchedEngine none r"abc"
    (by decide) (by decide)

/-- Claim C9: a mutation whose old and new values coincide, or arriving on
a host with no stored engine, issues no engine command and no change
notification, and returns the host state — including the engine
association — unchanged. -/
theorem c9_noop_suppression (s : HostState) (name : String)
    (oldV newV : Option String)
    (h : oldV = newV ∨ stateGet s = none) :
    attributeChangedCallback s name oldV newV = (s, []) := by
  rcases h with h | h
  · rw [attributeChangedCallback, if_pos h]
  · by_cases he : oldV = newV
    · rw [attributeChangedCallback, if_pos he]
    · rw [attributeChangedCallback, if_neg he, h]

/-- Witness for C9: a qualifying mutation on a host with no engine does
nothing. -/
theorem c9_witness :
    attributeChangedCallback initState r"open" none (some r"")
      = (initState, []) :=
  c9_noop_suppression initState r"open" none (some r"") (Or.inr rfl)

theorem getAttrOrEmpty_spec (attrs : String → Option String) (name : String) :
    (attrs name = none → getAttrOrEmpty attrs name = r"") ∧
    ∀ s, attrs name = some s → getAttrOrEmpty attrs name = s := by
  constructor
  · intro h
    rw [getAttrOrEmpty, h]
  · intro s h
    rw [getAttrOrEmpty, h]
    dsimp only
    by_cases hs : s = r""
    · rw [if_pos hs, hs]
    · rw [if_neg hs]

/-- Claim C10: the `value`, `dataValue` and `src` property getters return
the empty string — never null — when the corresponding attribute is absent,
and the attribute's string value when it is present. -/
theorem c10_getters_attr_or_empty (d : Dom) :
    ((d.attrs r"value" = none → valueGet d = r"") ∧
      ∀ s, d.attrs r"value" = some s → valueGet d = s) ∧
    ((d.attrs r"data-value" = none → dataValueGet d = r"") ∧
      ∀ s, d.attrs r"data-value" = some s → dataValueGet d = s) ∧
    ((d.attrs r"src" = none → srcGet d = r"") ∧
      ∀ s, d.attrs r"src" = some s → srcGet d = s) :=
  ⟨getAttrOrEmpty_spec d.attrs r"value",
    getAttrOrEmpty_spec d.attrs r"data-value",
    getAttrOrEmpty_spec d.attrs r"src"⟩

/-- Witness for C10 at a concrete attribute map. -/
theorem c10_witness :
    valueGet c10Dom = r"abc" ∧ dataValueGet c10Dom = r"xyz" ∧
    srcGet c10Dom = r"" :=
  ⟨(c10_getters_attr_or_empty c10Dom).1.2 r"abc" (by decide),
    (c10_getters_attr_or_empty c10Dom).2.1.2 r"xyz" (by decide),
    (c10_getters_attr_or_empty c10Dom).2.2.1 (by decide)⟩

end ACE
